import Mathlib

/-
  Verification of the ROI annotation editor (ROIEditor component) of the
  MEDAI repository.  The TypeScript source is shallowly embedded: JS numbers
  are modelled by the rationals (with the Lean convention that division by
  zero yields zero where the source would produce a non finite float; every
  place where that matters is called out), React state is an explicit record,
  and each pointer handler is a state transformer.  Random values produced by
  Math.random (the id of a committed ROI and its HU stand in) are modelled as
  explicit input parameters of the handler.
-/

namespace MedAI

/-- A 2-D point with rational coordinates, as used for both device pixels and
normalized annotation space percentages. -/
structure Point where
  x : ℚ
  y : ℚ
deriving DecidableEq

/-- The bounding client rect of the editor container
(containerRef.current.getBoundingClientRect in the source). -/
structure DOMRect where
  left : ℚ
  top : ℚ
  width : ℚ
  height : ℚ
deriving DecidableEq

/-- The fields of a React mouse event that the handlers read. -/
structure MouseEvent where
  clientX : ℚ
  clientY : ℚ
  button : ℤ
  shiftKey : Bool
deriving DecidableEq

/-- Embeds getMousePos.  The container rect is an Option: none models a
detached containerRef (the only case the source guards, returning the origin).
When a rect is present the source divides by rect.width and rect.height with
no zero check; with a zero extent the JS division yields a non finite float,
modelled here by the rational convention that division by zero is zero. -/
def getMousePos (rect? : Option DOMRect) (e : MouseEvent) : Point :=
  match rect? with
  | none => ⟨0, 0⟩
  | some rect =>
      ⟨(e.clientX - rect.left) / rect.width * 100,
       (e.clientY - rect.top) / rect.height * 100⟩

/-- A mouse event at a given device position (primary button, no modifier). -/
def evAt (p : Point) : MouseEvent :=
  ⟨p.x, p.y, 0, false⟩

/-- Device position at which a normalized annotation point is rendered.
Modelled from the transform layer of the source: the overlay lives in a child
div of the container carrying the CSS transform scale(zoom)
translate(pan.x px, pan.y px) with origin top left, and overlay coordinates
are percentages of the untransformed layer, whose size equals the container
rect.  CSS applies the listed transforms right to left, so a local point u is
mapped to zoom * (u + pan), offset by the container corner. -/
def renderPos (rect : DOMRect) (zoom : ℚ) (pan : Point) (p : Point) : Point :=
  ⟨rect.left + zoom * (p.x / 100 * rect.width + pan.x),
   rect.top + zoom * (p.y / 100 * rect.height + pan.y)⟩

/-- A 100 by 100 container anchored at the viewport origin. -/
def rect100 : DOMRect := ⟨0, 0, 100, 100⟩

/-- Squared Euclidean distance of two points (the dx*dx + dy*dy of the inner
loop of calculateLongestDistance). -/
def distSq (p q : Point) : ℚ :=
  (p.x - q.x) * (p.x - q.x) + (p.y - q.y) * (p.y - q.y)

/-- The ordered pairs (points[i], points[j]) with i < j, in the visit order of
the double loop of calculateLongestDistance. -/
def offDiagPairs : List Point → List (Point × Point)
  | [] => []
  | p :: rest => (rest.map fun q => (p, q)) ++ offDiagPairs rest

/-- The running maximum of squared distances computed by the double loop of
calculateLongestDistance, starting from 0. -/
def maxDistSq (points : List Point) : ℚ :=
  (offDiagPairs points).foldl
    (fun acc pq => if distSq pq.1 pq.2 > acc then distSq pq.1 pq.2 else acc) 0

/-- Embeds calculateLongestDistance: the square root of the maximal squared
pairwise distance, scaled by the fixed constant 3.5 and then floored
(Math.floor in the source), yielding an integer millimeter value. -/
noncomputable def calculateLongestDistance (points : List Point) : ℤ :=
  ⌊Real.sqrt ((maxDistSq points : ℚ) : ℝ) * 3.5⌋

/-- Specification side definition, following the words of the spec: the
maximum Euclidean (not squared) distance over all unordered pairs of points
(zero when fewer than two points exist). -/
noncomputable def maxPairwiseDist (points : List Point) : ℝ :=
  (offDiagPairs points).foldl
    (fun acc pq => max acc (Real.sqrt ((distSq pq.1 pq.2 : ℚ) : ℝ))) 0

/-- The three drawing tools of the editor toolbar. -/
inductive Tool
  | select
  | pencil
  | rect
deriving DecidableEq

/-- The shape discriminator of the ROIAnnotation interface in the types
module (the string union of rect, path and circle). -/
inductive ROIType
  | rect
  | path
  | circle
deriving DecidableEq

/-- The optional measurements record of an ROI; every field is optional in
the source interface. -/
structure Measurements where
  length : Option ℚ
  width : Option ℚ
  volume : Option ℚ
  huValue : Option ℚ
  adcValue : Option ℚ
deriving DecidableEq

/-- An ROI entity as declared in the types module and stored by the editor. -/
structure ROIAnnotation where
  id : String
  type : ROIType
  points : List Point
  label : String
  measurements : Option Measurements
  isConfirmed : Bool
deriving DecidableEq

/-- The dragState record of the editor (which ROI and which vertex index a
select mode drag is moving). -/
structure DragState where
  roiId : String
  pointIndex : ℕ
deriving DecidableEq

/-- The React state of the ROIEditor component that the pointer handlers read
and write. -/
structure EditorState where
  rois : List ROIAnnotation
  tool : Tool
  isDrawing : Bool
  currentPoints : List Point
  zoom : ℚ
  pan : Point
  dragState : Option DragState
  isPanning : Bool
  panStart : Point
deriving DecidableEq

/-- First vertex index of a given ROI point list hit by the click, using the
strict Math.abs comparisons of the source against the scaled threshold. -/
def hitIdx (pts : List Point) (thr : ℚ) (q : Point) : Option ℕ :=
  pts.findIdx? (fun p => decide (|p.x - q.x| < thr ∧ |p.y - q.y| < thr))

/-- The nested vertex hit test loop of handleMouseDown: first ROI in store
order whose point list has a hit, paired with the first hit index. -/
def findHit (rois : List ROIAnnotation) (thr : ℚ) (q : Point) : Option DragState :=
  match rois with
  | [] => none
  | r :: rest =>
      match hitIdx r.points thr q with
      | some i => some ⟨r.id, i⟩
      | none => findHit rest thr q

/-- Embeds handleMouseDown.  Middle button or shift in select mode starts a
pan; select mode hit tests vertices within threshold 3 / zoom and starts a
vertex drag on the first match; pencil or rect starts a draw gesture with a
single accumulated point. -/
def handleMouseDown (rect? : Option DOMRect) (s : EditorState) (e : MouseEvent) :
    EditorState :=
  if e.button = 1 ∨ (s.tool = Tool.select ∧ e.shiftKey = true) then
    { s with isPanning := true,
             panStart := ⟨e.clientX - s.pan.x, e.clientY - s.pan.y⟩ }
  else
    let q := getMousePos rect? e
    if s.tool = Tool.select then
      match findHit s.rois (3 / s.zoom) q with
      | some ds => { s with dragState := some ds }
      | none => s
    else
      { s with isDrawing := true, currentPoints := [q] }

/-- Models the JS object spread in the drag branch of handleMouseMove: the
spread of a possibly undefined measurements object with the recomputed length
written over it. -/
def measWithLength (m? : Option Measurements) (len : ℚ) : Measurements :=
  match m? with
  | none => ⟨some len, none, none, none, none⟩
  | some m => { m with length := some len }

/-- The per ROI update applied by the drag branch of handleMouseMove: vertex
at the dragged index replaced, length recomputed, isConfirmed set. -/
noncomputable def dragUpdateROI (i : ℕ) (q : Point) (r : ROIAnnotation) :
    ROIAnnotation :=
  let newPoints := r.points.set i q
  { r with points := newPoints,
           isConfirmed := true,
           measurements :=
             some (measWithLength r.measurements
               ((calculateLongestDistance newPoints : ℤ) : ℚ)) }

/-- Embeds handleMouseMove.  Panning updates the pan offset relative to the
anchor; an active dragState rewrites the matching ROI; otherwise a pencil
gesture appends the point and a rect gesture keeps exactly the start point
and the current point.  The source reads currentPoints[0] in the rect branch,
which is only reached with a nonempty gesture; headD totalizes that read. -/
noncomputable def handleMouseMove (rect? : Option DOMRect) (s : EditorState)
    (e : MouseEvent) : EditorState :=
  if s.isPanning = true then
    { s with pan := ⟨e.clientX - s.panStart.x, e.clientY - s.panStart.y⟩ }
  else
    let q := getMousePos rect? e
    match s.dragState with
    | some ds =>
        { s with rois := s.rois.map fun r =>
            if r.id = ds.roiId then dragUpdateROI ds.pointIndex q r else r }
    | none =>
        if s.isDrawing = false then s
        else if s.tool = Tool.pencil then
          { s with currentPoints := s.currentPoints ++ [q] }
        else if s.tool = Tool.rect then
          { s with currentPoints := [s.currentPoints.headD ⟨0, 0⟩, q] }
        else s

/-- The rect expansion of handleMouseUp: first and last accumulated corners
expanded to the fixed four corner polygon.  The source reads index 0 and
index length - 1, both defined under the guarding length check; headD and
getLastD totalize those reads. -/
def rectFinal (pts : List Point) : List Point :=
  let p1 := pts.headD ⟨0, 0⟩
  let p2 := pts.getLastD ⟨0, 0⟩
  [⟨p1.x, p1.y⟩, ⟨p2.x, p1.y⟩, ⟨p2.x, p2.y⟩, ⟨p1.x, p2.y⟩]

/-- The finalPoints local of handleMouseUp: rect gestures with at least two
accumulated points are expanded, everything else is committed as drawn. -/
def finalPointsOf (s : EditorState) : List Point :=
  if s.tool = Tool.rect ∧ 2 ≤ s.currentPoints.length then rectFinal s.currentPoints
  else s.currentPoints

/-- The ROI object literal committed by handleMouseUp.  The id is the
Math.random derived string and the HU value the Math.random derived integer,
both passed in as parameters of the model. -/
noncomputable def newROI (freshId : String) (finalPoints : List Point) (hu : ℤ) :
    ROIAnnotation :=
  { id := freshId,
    type := ROIType.path,
    points := finalPoints,
    label := "Doctor ROI",
    isConfirmed := true,
    measurements := some
      ⟨some ((calculateLongestDistance finalPoints : ℤ) : ℚ), none, none,
       some ((hu : ℤ) : ℚ), none⟩ }

/-- Embeds handleMouseUp: ends a pan or a drag; otherwise, when a draw
gesture is active, clears isDrawing, expands rect corners, discards the
gesture when fewer than two final points exist, and otherwise appends the
committed ROI, clears the gesture points and resets the tool to select. -/
noncomputable def handleMouseUp (s : EditorState) (freshId : String) (hu : ℤ) :
    EditorState :=
  if s.isPanning = true then { s with isPanning := false }
  else
    match s.dragState with
    | some _ => { s with dragState := none }
    | none =>
        if s.isDrawing = false then s
        else
          let s1 : EditorState := { s with isDrawing := false }
          let finalPoints := finalPointsOf s
          if finalPoints.length < 2 then s1
          else
            { s1 with rois := s1.rois ++ [newROI freshId finalPoints hu],
                      currentPoints := [],
                      tool := Tool.select }

/-- Embeds deleteROI: keep every ROI whose id differs. -/
def deleteROI (id : String) (rois : List ROIAnnotation) : List ROIAnnotation :=
  rois.filter (fun r => decide (r.id ≠ id))

/-- The summand of the burden reduce: the length measurement with undefined
(and zero, via the JS falsiness of 0) collapsing to zero. -/
def measLengthOrZero (r : ROIAnnotation) : ℚ :=
  match r.measurements with
  | none => 0
  | some m => m.length.getD 0

/-- Embeds totalTumorBurden: the reduce over the ROI list summing the length
measurements, starting from 0. -/
def totalTumorBurden (rois : List ROIAnnotation) : ℚ :=
  rois.foldl (fun acc r => acc + measLengthOrZero r) 0

/-- One user level event consumed by the editor: the three pointer handlers
plus the sidebar delete button. -/
inductive Event
  | down (e : MouseEvent)
  | move (e : MouseEvent)
  | up (freshId : String) (hu : ℤ)
  | del (id : String)

/-- One transition of the editor: dispatch of an event to its handler. -/
noncomputable def step (rect? : Option DOMRect) (s : EditorState) : Event → EditorState
  | Event.down e => handleMouseDown rect? s e
  | Event.move e => handleMouseMove rect? s e
  | Event.up freshId hu => handleMouseUp s freshId hu
  | Event.del id => { s with rois := deleteROI id s.rois }

/-- A fresh editor with the rect tool active. -/
def s0rect : EditorState :=
  ⟨[], Tool.rect, false, [], 1, ⟨0, 0⟩, none, false, ⟨0, 0⟩⟩

/-- A fresh editor with the pencil tool active. -/
def s0pencil : EditorState :=
  ⟨[], Tool.pencil, false, [], 1, ⟨0, 0⟩, none, false, ⟨0, 0⟩⟩

/-- A full rect draw gesture over the 100 by 100 container at identity view:
pointer down at device position a, one move to device position b, pointer
up. -/
noncomputable def runRectGesture (a b : Point) : EditorState :=
  handleMouseUp
    (handleMouseMove (some rect100)
      (handleMouseDown (some rect100) s0rect (evAt a)) (evAt b))
    "r1" 30

/-- A machine proposed, not yet confirmed ROI used in drag scenarios. -/
def roiProposal : ROIAnnotation :=
  ⟨"a", ROIType.rect, [⟨0, 0⟩, ⟨10, 0⟩], "AI", some ⟨some 7, none, none, some 40, none⟩,
   false⟩

/-- An editor mid drag of vertex 0 of the proposed ROI. -/
def sDrag : EditorState :=
  ⟨[roiProposal], Tool.select, false, [], 1, ⟨0, 0⟩, some ⟨"a", 0⟩, false, ⟨0, 0⟩⟩

/-- An editor mid pencil gesture whose store already holds an ROI with id
abc, about to receive the colliding generated id abc on pointer up. -/
def sDup : EditorState :=
  ⟨[⟨"abc", ROIType.path, [⟨0, 0⟩, ⟨1, 0⟩], "AI", none, false⟩], Tool.pencil, true,
   [⟨0, 0⟩, ⟨2, 0⟩], 1, ⟨0, 0⟩, none, false, ⟨0, 0⟩⟩

/-- An editor mid pencil gesture holding a single accumulated point. -/
def sShort : EditorState :=
  ⟨[], Tool.pencil, true, [⟨20, 20⟩], 1, ⟨0, 0⟩, none, false, ⟨0, 0⟩⟩

/-- An editor mid pencil gesture holding two accumulated points. -/
def sDraw : EditorState :=
  ⟨[], Tool.pencil, true, [⟨0, 0⟩, ⟨3, 4⟩], 1, ⟨0, 0⟩, none, false, ⟨0, 0⟩⟩

/-- An editor mid rect gesture holding corners (10, 10) and (50, 40). -/
def sRect2 : EditorState :=
  ⟨[], Tool.rect, true, [⟨10, 10⟩, ⟨50, 40⟩], 1, ⟨0, 0⟩, none, false, ⟨0, 0⟩⟩

/-- A stored ROI with length measurement 10. -/
def roiLen10 : ROIAnnotation :=
  ⟨"b1", ROIType.path, [⟨0, 0⟩, ⟨1, 0⟩], "L1", some ⟨some 10, none, none, some 35, none⟩,
   true⟩

/-- A stored ROI with length measurement 15. -/
def roiLen15 : ROIAnnotation :=
  ⟨"b2", ROIType.path, [⟨0, 0⟩, ⟨2, 0⟩], "L2", some ⟨some 15, none, none, some 35, none⟩,
   true⟩

lemma ifGt_eq_max (a x : ℚ) : (if x > a then x else a) = max a x := by
  rcases le_or_lt x a with h | h
  · rw [if_neg (not_lt.mpr h), max_eq_left h]
  · rw [if_pos h, max_eq_right h.le]

lemma foldl_ifGt_eq_foldl_max (l : List (Point × Point)) (a : ℚ) :
    l.foldl (fun acc pq => if distSq pq.1 pq.2 > acc then distSq pq.1 pq.2 else acc) a
      = l.foldl (fun acc pq => max acc (distSq pq.1 pq.2)) a := by
  induction l generalizing a with
  | nil => rfl
  | cons pq rest ih => simp only [List.foldl_cons, ifGt_eq_max, ih]

lemma cast_foldl_max (l : List (Point × Point)) (a : ℚ) :
    ((l.foldl (fun acc pq => max acc (distSq pq.1 pq.2)) a : ℚ) : ℝ)
      = l.foldl (fun acc pq => max acc ((distSq pq.1 pq.2 : ℚ) : ℝ)) (a : ℝ) := by
  induction l generalizing a with
  | nil => rfl
  | cons pq rest ih => simp only [List.foldl_cons, ih, Rat.cast_max]

lemma sqrt_foldl_max (l : List (Point × Point)) (a : ℝ) :
    Real.sqrt (l.foldl (fun acc pq => max acc ((distSq pq.1 pq.2 : ℚ) : ℝ)) a)
      = l.foldl (fun acc pq => max acc (Real.sqrt ((distSq pq.1 pq.2 : ℚ) : ℝ)))
          (Real.sqrt a) := by
  induction l generalizing a with
  | nil => rfl
  | cons pq rest ih =>
      have mono : Monotone Real.sqrt := fun x y h => Real.sqrt_le_sqrt h
      simp only [List.foldl_cons, ih, mono.map_max]

/-- The running squared maximum of the source loop, square rooted, is exactly
the specification side maximum Euclidean pairwise distance. -/
lemma sqrt_maxDistSq (points : List Point) :
    Real.sqrt ((maxDistSq points : ℚ) : ℝ) = maxPairwiseDist points := by
  rw [maxDistSq, maxPairwiseDist, foldl_ifGt_eq_foldl_max, cast_foldl_max,
    sqrt_foldl_max]
  norm_num

lemma maxDistSq_triangle : maxDistSq [⟨0, 0⟩, ⟨0, 3⟩, ⟨4, 0⟩] = 25 := by
  simp only [maxDistSq, offDiagPairs, distSq, List.map, List.foldl, List.append]
  norm_num

/-- Concrete evaluation of calculateLongestDistance at the 3-4-5 triangle. -/
lemma cld_triangle : calculateLongestDistance [⟨0, 0⟩, ⟨0, 3⟩, ⟨4, 0⟩] = 17 := by
  rw [calculateLongestDistance, maxDistSq_triangle]
  have h5 : Real.sqrt ((25 : ℚ) : ℝ) = 5 := by
    rw [show (((25 : ℚ) : ℝ)) = 5 ^ 2 by norm_num, Real.sqrt_sq (by norm_num)]
  rw [h5]
  rw [show (5 : ℝ) * 3.5 = 17.5 by norm_num]
  rw [Int.floor_eq_iff]
  norm_num


lemma rois_handleMouseDown (rect? : Option DOMRect) (s : EditorState)
    (e : MouseEvent) : (handleMouseDown rect? s e).rois = s.rois := by
  unfold handleMouseDown
  dsimp only
  repeat' split
  all_goals rfl

lemma handleMouseMove_drag (rect? : Option DOMRect) (s : EditorState)
    (e : MouseEvent) (ds : DragState) (hp : s.isPanning = false)
    (hd : s.dragState = some ds) :
    handleMouseMove rect? s e
      = { s with rois := s.rois.map fun r =>
            if r.id = ds.roiId then
              dragUpdateROI ds.pointIndex (getMousePos rect? e) r
            else r } := by
  unfold handleMouseMove
  rw [hp, hd]
  simp only [Bool.false_eq_true, if_false]

lemma handleMouseUp_commit (s : EditorState) (fid : String) (hu : ℤ)
    (hp : s.isPanning = false) (hd : s.dragState = none)
    (hdr : s.isDrawing = true) (hlen : 2 ≤ (finalPointsOf s).length) :
    handleMouseUp s fid hu
      = { s with isDrawing := false,
                 rois := s.rois ++ [newROI fid (finalPointsOf s) hu],
                 currentPoints := [],
                 tool := Tool.select } := by
  unfold handleMouseUp
  rw [hp, hd, hdr]
  simp only [Bool.false_eq_true, Bool.true_eq_false, if_false,
    if_neg (not_lt.mpr hlen)]

lemma handleMouseUp_discard (s : EditorState) (fid : String) (hu : ℤ)
    (hp : s.isPanning = false) (hd : s.dragState = none)
    (hdr : s.isDrawing = true) (hlen : (finalPointsOf s).length < 2) :
    handleMouseUp s fid hu = { s with isDrawing := false } := by
  unfold handleMouseUp
  rw [hp, hd, hdr]
  simp only [Bool.false_eq_true, Bool.true_eq_false, if_false, if_pos hlen]

lemma measWithLength_length (m? : Option Measurements) (len : ℚ) :
    (measWithLength m? len).length = some len := by
  cases m? <;> rfl

lemma mem_rois_handleMouseUp (s : EditorState) (fid : String) (hu : ℤ)
    (r : ROIAnnotation) (hr : r ∈ (handleMouseUp s fid hu).rois) :
    r ∈ s.rois ∨ r = newROI fid (finalPointsOf s) hu := by
  unfold handleMouseUp at hr
  split at hr
  · exact Or.inl hr
  · split at hr
    · exact Or.inl hr
    · split at hr
      · exact Or.inl hr
      · dsimp only at hr
        split at hr
        · exact Or.inl hr
        · rcases List.mem_append.mp hr with h | h
          · exact Or.inl h
          · exact Or.inr (List.mem_singleton.mp h)

lemma mem_rois_step (rect? : Option DOMRect) (s : EditorState) (ev : Event)
    (r : ROIAnnotation) (hr : r ∈ (step rect? s ev).rois) :
    r ∈ s.rois ∨ r.isConfirmed = true := by
  cases ev with
  | down e =>
      rw [step, rois_handleMouseDown] at hr
      exact Or.inl hr
  | move e =>
      rw [step] at hr
      unfold handleMouseMove at hr
      split at hr
      · exact Or.inl hr
      · split at hr
        · next ds heq =>
            rcases List.mem_map.mp hr with ⟨r0, hr0, hfr⟩
            subst hfr
            by_cases hid : r0.id = ds.roiId
            · rw [if_pos hid]
              exact Or.inr rfl
            · rw [if_neg hid]
              exact Or.inl hr0
        · split at hr
          · exact Or.inl hr
          · split at hr
            · exact Or.inl hr
            · split at hr
              · exact Or.inl hr
              · exact Or.inl hr
  | up fid hu =>
      rw [step] at hr
      rcases mem_rois_handleMouseUp s fid hu r hr with h | h
      · exact Or.inl h
      · exact Or.inr (h ▸ rfl)
  | del id =>
      rw [step] at hr
      exact Or.inl (List.mem_of_mem_filter hr)

lemma rois_handleMouseMove_pan (rect? : Option DOMRect) (s : EditorState)
    (e : MouseEvent) (hp : s.isPanning = true) :
    (handleMouseMove rect? s e).rois = s.rois := by
  unfold handleMouseMove
  rw [hp]
  rfl

lemma rois_handleMouseMove_nodrag (rect? : Option DOMRect) (s : EditorState)
    (e : MouseEvent) (hd : s.dragState = none) :
    (handleMouseMove rect? s e).rois = s.rois := by
  unfold handleMouseMove
  rw [hd]
  dsimp only
  repeat' split
  all_goals rfl

lemma mem_rois_handleMouseUp_of_mem (s : EditorState) (fid : String) (hu : ℤ)
    (r : ROIAnnotation) (hr : r ∈ s.rois) :
    r ∈ (handleMouseUp s fid hu).rois := by
  unfold handleMouseUp
  split
  · exact hr
  · split
    · exact hr
    · split
      · exact hr
      · dsimp only
        split
        · exact hr
        · exact List.mem_append_left _ hr

lemma foldl_add_measLength (l : List ROIAnnotation) (a : ℚ) :
    l.foldl (fun acc r => acc + measLengthOrZero r) a
      = a + (l.map measLengthOrZero).sum := by
  induction l generalizing a with
  | nil => simp
  | cons r t ih =>
      simp only [List.foldl_cons, List.map_cons, List.sum_cons, ih]
      ring

/-- C1 (amended): the round trip from normalized annotation space through the
rendered device position and back through getMousePos is the identity exactly
at the identity view; in general it returns the stored point scaled by zoom
and shifted by the pan offset, so stored coordinates are not zoom or pan
invariant. -/
theorem mousePos_roundtrip_at_identity_view :
    ∀ (rect : DOMRect) (p : Point) (zoom : ℚ) (pan : Point),
      rect.width ≠ 0 → rect.height ≠ 0 →
      getMousePos (some rect) (evAt (renderPos rect zoom pan p))
          = ⟨zoom * (p.x + pan.x / rect.width * 100),
             zoom * (p.y + pan.y / rect.height * 100)⟩
        ∧ getMousePos (some rect) (evAt (renderPos rect 1 ⟨0, 0⟩ p)) = p := by
  rintro ⟨rl, rt, rw, rh⟩ ⟨px, py⟩ zoom ⟨panx, pany⟩ hw hh
  simp only [getMousePos, renderPos, evAt, Point.mk.injEq] at *
  refine ⟨⟨?_, ?_⟩, ?_, ?_⟩ <;> field_simp <;> ring

/-- Witness for C1 at a concrete container, point, zoom and pan. -/
theorem mousePos_roundtrip_at_identity_view_witness :
    getMousePos (some rect100) (evAt (renderPos rect100 1 ⟨0, 0⟩ ⟨50, 50⟩))
      = ⟨50, 50⟩ :=
  (mousePos_roundtrip_at_identity_view rect100 ⟨50, 50⟩ 2 ⟨3, 4⟩
    (by norm_num [rect100]) (by norm_num [rect100])).2

/-- Counterexample to C1 as stated: at zoom 2 with zero pan, the point stored
as (50, 50) renders at device position (100, 100) of a 100 by 100 container,
and mapping that device position back through getMousePos yields (100, 100),
not (50, 50). -/
theorem mousePos_roundtrip_fails_under_zoom :
    getMousePos (some rect100) (evAt (renderPos rect100 2 ⟨0, 0⟩ ⟨50, 50⟩))
        = ⟨100, 100⟩
      ∧ (⟨100, 100⟩ : Point) ≠ (⟨50, 50⟩ : Point) := by
  constructor
  · simp only [getMousePos, renderPos, evAt, rect100, Point.mk.injEq]
    norm_num
  · simp only [ne_eq, Point.mk.injEq, not_and]
    norm_num

/-- C2 (amended): calculateLongestDistance returns the floor of the maximum
Euclidean (not squared) pairwise distance multiplied by the fixed scale
constant 3.5; at the 3-4-5 triangle it therefore returns 17, the floor of
17.5. -/
theorem longestDistance_floor_of_max_euclidean :
    (∀ points : List Point,
        calculateLongestDistance points = ⌊maxPairwiseDist points * 3.5⌋)
      ∧ calculateLongestDistance [⟨0, 0⟩, ⟨0, 3⟩, ⟨4, 0⟩] = 17 := by
  refine ⟨fun points => ?_, cld_triangle⟩
  rw [calculateLongestDistance, sqrt_maxDistSq]

/-- Counterexample to C2 as stated: at the triangle input the function does
not return the unfloored scaled hypotenuse 17.5 but its floor 17. -/
theorem longestDistance_not_unfloored_at_triangle :
    ((calculateLongestDistance [⟨0, 0⟩, ⟨0, 3⟩, ⟨4, 0⟩] : ℤ) : ℝ) ≠ 5 * 3.5
      ∧ calculateLongestDistance [⟨0, 0⟩, ⟨0, 3⟩, ⟨4, 0⟩] = 17 := by
  refine ⟨?_, cld_triangle⟩
  rw [cld_triangle]
  norm_num

/-- C3 (amended): getMousePos returns the origin exactly in the case the
source guards, a missing container rect; a present rect of zero extent is not
special cased. -/
theorem mousePos_origin_when_no_container :
    ∀ e : MouseEvent, getMousePos none e = ⟨0, 0⟩ :=
  fun _ => rfl

/-- Counterexample to C3 as stated: with a zero width but nonzero height
container rect, getMousePos does not return the degenerate origin; the y
coordinate is mapped normally (and in JS the x coordinate is a division by
zero, hence non finite rather than zero). -/
theorem mousePos_zero_width_not_origin :
    getMousePos (some ⟨0, 0, 0, 100⟩) (evAt ⟨5, 50⟩) = ⟨0, 50⟩
      ∧ getMousePos (some ⟨0, 0, 0, 100⟩) (evAt ⟨5, 50⟩) ≠ (⟨0, 0⟩ : Point) := by
  constructor
  · simp only [getMousePos, evAt, Point.mk.injEq]
    norm_num
  · simp only [getMousePos, evAt, ne_eq, Point.mk.injEq, not_and]
    norm_num

/-- C4: a rect gesture with at least two accumulated points commits, on
pointer up, exactly the ordered four corner clockwise polygon rooted at the
first corner; both the (10, 10) to (50, 40) drag and the reversed drag yield
a four point polygon with the same vertex set, covering the bounding region
from 10 to 50 in x and 10 to 40 in y. -/
theorem rect_gesture_four_corner_polygon :
    (∀ (s : EditorState) (fid : String) (hu : ℤ) (p1 p2 : Point),
        s.isPanning = false → s.dragState = none → s.isDrawing = true →
        s.tool = Tool.rect → 2 ≤ s.currentPoints.length →
        s.currentPoints.head? = some p1 → s.currentPoints.getLast? = some p2 →
        ∃ r, (handleMouseUp s fid hu).rois = s.rois ++ [r]
          ∧ r.points = [⟨p1.x, p1.y⟩, ⟨p2.x, p1.y⟩, ⟨p2.x, p2.y⟩, ⟨p1.x, p2.y⟩]
          ∧ r.points.length = 4)
      ∧ ((runRectGesture ⟨10, 10⟩ ⟨50, 40⟩).rois.map fun r => r.points)
          = [[⟨10, 10⟩, ⟨50, 10⟩, ⟨50, 40⟩, ⟨10, 40⟩]]
      ∧ ((runRectGesture ⟨50, 40⟩ ⟨10, 10⟩).rois.map fun r => r.points)
          = [[⟨50, 40⟩, ⟨10, 40⟩, ⟨10, 10⟩, ⟨50, 10⟩]]
      ∧ (∀ q : Point,
          q ∈ ([⟨10, 10⟩, ⟨50, 10⟩, ⟨50, 40⟩, ⟨10, 40⟩] : List Point)
            ↔ q ∈ ([⟨50, 40⟩, ⟨10, 40⟩, ⟨10, 10⟩, ⟨50, 10⟩] : List Point)) := by
  refine ⟨?_, ?_, ?_, ?_⟩
  · intro s fid hu p1 p2 hp hd hdr ht hlen hh hl
    have hfp : finalPointsOf s
        = [⟨p1.x, p1.y⟩, ⟨p2.x, p1.y⟩, ⟨p2.x, p2.y⟩, ⟨p1.x, p2.y⟩] := by
      rw [finalPointsOf, if_pos ⟨ht, hlen⟩]
      simp only [rectFinal, List.headD_eq_head?, List.getLastD_eq_getLast?, hh, hl,
        Option.getD_some]
    have hlen2 : 2 ≤ (finalPointsOf s).length := by
      rw [hfp]
      norm_num
    rw [handleMouseUp_commit s fid hu hp hd hdr hlen2]
    refine ⟨newROI fid (finalPointsOf s) hu, rfl, hfp, ?_⟩
    rw [show (newROI fid (finalPointsOf s) hu).points = finalPointsOf s from rfl, hfp]
    rfl
  · simp [runRectGesture, handleMouseUp, handleMouseMove, handleMouseDown, s0rect,
      evAt, rect100, getMousePos, finalPointsOf, rectFinal, newROI]
  · simp [runRectGesture, handleMouseUp, handleMouseMove, handleMouseDown, s0rect,
      evAt, rect100, getMousePos, finalPointsOf, rectFinal, newROI]
  · intro q
    simp only [List.mem_cons, List.not_mem_nil, or_false]
    tauto

/-- Witness for C4: the gesture state with corners (10, 10) and (50, 40)
commits the four corner polygon. -/
theorem rect_gesture_four_corner_polygon_witness :
    ((handleMouseUp sRect2 "r1" 30).rois.map fun r => r.points)
      = [[⟨10, 10⟩, ⟨50, 10⟩, ⟨50, 40⟩, ⟨10, 40⟩]] := by
  obtain ⟨r, ha, hpts, hlen⟩ :=
    rect_gesture_four_corner_polygon.1 sRect2 "r1" 30 ⟨10, 10⟩ ⟨50, 40⟩ rfl rfl rfl
      rfl (by decide) rfl rfl
  rw [ha, show sRect2.rois = [] from rfl]
  simp [hpts]

/-- C5: a pointer move during a vertex drag leaves the store length
unchanged, leaves every ROI with a different id untouched, and rewrites the
target ROI by replacing exactly the dragged vertex with the transformed
pointer location, setting isConfirmed and recomputing the length measurement
from the new point list; moreover no editor transition ever produces an
unconfirmed ROI that was not already stored unchanged, and every event that
is neither a drag move on a given stored ROI nor a deletion of its id keeps
that ROI in the store as the identical record, so an ROI created with
isConfirmed false stays stored with the flag still false for as long as no
vertex drag ever touches it. -/
theorem vertex_drag_updates_and_confirms :
    (∀ (rect? : Option DOMRect) (s : EditorState) (e : MouseEvent) (rid : String)
        (i : ℕ), s.isPanning = false → s.dragState = some ⟨rid, i⟩ →
        (handleMouseMove rect? s e).rois.length = s.rois.length
        ∧ ∀ (k : ℕ) (r : ROIAnnotation), s.rois.get? k = some r →
            (r.id ≠ rid → (handleMouseMove rect? s e).rois.get? k = some r)
            ∧ (r.id = rid → i < r.points.length →
                ∃ r2, (handleMouseMove rect? s e).rois.get? k = some r2
                  ∧ r2.points.length = r.points.length
                  ∧ r2.points.get? i = some (getMousePos rect? e)
                  ∧ (∀ j : ℕ, j ≠ i → r2.points.get? j = r.points.get? j)
                  ∧ r2.isConfirmed = true
                  ∧ ∃ m, r2.measurements = some m
                      ∧ m.length = some ((calculateLongestDistance r2.points : ℤ) : ℚ)))
      ∧ (∀ (rect? : Option DOMRect) (s : EditorState) (ev : Event)
          (r : ROIAnnotation), r ∈ (step rect? s ev).rois → r.isConfirmed = false →
          r ∈ s.rois)
      ∧ (∀ (rect? : Option DOMRect) (s : EditorState) (ev : Event)
          (r : ROIAnnotation), r ∈ s.rois →
          (∀ (e : MouseEvent) (ds : DragState),
              ev = Event.move e → s.dragState = some ds → ds.roiId ≠ r.id) →
          (∀ id : String, ev = Event.del id → id ≠ r.id) →
          r ∈ (step rect? s ev).rois) := by
  refine ⟨?_, ?_, ?_⟩
  · intro rect? s e rid i hp hd
    rw [handleMouseMove_drag rect? s e ⟨rid, i⟩ hp hd]
    dsimp only
    constructor
    · exact List.length_map s.rois _
    · intro k r hk
      constructor
      · intro hne
        rw [List.get?_map, hk, Option.map_some', if_neg hne]
      · intro hid hi
        refine ⟨dragUpdateROI i (getMousePos rect? e) r, ?_, ?_, ?_, ?_, rfl, ?_⟩
        · rw [List.get?_map, hk, Option.map_some', if_pos hid]
        · exact List.length_set r.points i _
        · exact List.get?_set_eq_of_lt _ hi
        · intro j hj
          exact List.get?_set_ne _ r.points hj.symm
        · exact ⟨measWithLength r.measurements _, rfl, measWithLength_length _ _⟩
  · intro rect? s ev r hr hc
    refine (mem_rois_step rect? s ev r hr).resolve_right ?_
    rw [hc]
    exact Bool.false_ne_true
  · intro rect? s ev r hr hdrag hdel
    cases ev with
    | down e =>
        rw [step, rois_handleMouseDown]
        exact hr
    | move e =>
        rw [step]
        cases hds : s.dragState with
        | none => rw [rois_handleMouseMove_nodrag rect? s e hds]; exact hr
        | some ds =>
            by_cases hp : s.isPanning = true
            · rw [rois_handleMouseMove_pan rect? s e hp]
              exact hr
            · rw [handleMouseMove_drag rect? s e ds
                (Bool.not_eq_true s.isPanning ▸ hp) hds]
              dsimp only
              refine List.mem_map.mpr ⟨r, hr, ?_⟩
              rw [if_neg fun h => hdrag e ds rfl hds h.symm]
    | up fid hu =>
        rw [step]
        exact mem_rois_handleMouseUp_of_mem s fid hu r hr
    | del id =>
        rw [step]
        dsimp only
        refine List.mem_filter.mpr ⟨hr, ?_⟩
        exact decide_eq_true fun h => hdel id rfl h.symm

/-- Witness for C5: dragging vertex 0 of the unconfirmed proposal to device
position (5, 5) replaces that vertex and confirms the ROI, while a pointer up
that drags nothing keeps the untouched proposal stored with the flag still
false. -/
theorem vertex_drag_updates_and_confirms_witness :
    ((handleMouseMove (some rect100) sDrag (evAt ⟨5, 5⟩)).rois.get? 0).map
        (fun r => r.isConfirmed) = some true
      ∧ ((handleMouseMove (some rect100) sDrag (evAt ⟨5, 5⟩)).rois.get? 0).map
          (fun r => r.points.get? 0) = some (some ⟨5, 5⟩)
      ∧ roiProposal ∈ (step (some rect100) sDrag (Event.up "z" 30)).rois
      ∧ roiProposal.isConfirmed = false := by
  obtain ⟨hlen, hks⟩ :=
    (vertex_drag_updates_and_confirms.1 (some rect100) sDrag (evAt ⟨5, 5⟩) "a" 0
      rfl rfl)
  obtain ⟨hne, hyes⟩ := hks 0 roiProposal rfl
  obtain ⟨r2, hg, hl2, hp2, hother, hc2, hm⟩ := hyes rfl (by decide)
  have hmp : getMousePos (some rect100) (evAt ⟨5, 5⟩) = ⟨5, 5⟩ := by
    simp only [getMousePos, evAt, rect100, Point.mk.injEq]
    norm_num
  rw [hg]
  rw [hmp] at hp2
  refine ⟨by rw [Option.map_some', hc2], by rw [Option.map_some', hp2], ?_, rfl⟩
  exact vertex_drag_updates_and_confirms.2.2 (some rect100) sDrag
    (Event.up "z" 30) roiProposal (List.mem_cons_self _ _)
    (fun e ds h => nomatch h) (fun id h => nomatch h)

/-- C6 (amended): pointer up on a draw gesture with at least two final points
appends exactly one new ROI carrying the generated id (the code performs no
check that the generated id differs from ids already stored), isConfirmed
true and a length measurement computed from the final point list, and resets
the tool to select. -/
theorem commit_appends_new_confirmed_roi :
    ∀ (s : EditorState) (fid : String) (hu : ℤ),
      s.isPanning = false → s.dragState = none → s.isDrawing = true →
      2 ≤ (finalPointsOf s).length →
      ∃ r, (handleMouseUp s fid hu).rois = s.rois ++ [r]
        ∧ r.id = fid
        ∧ r.isConfirmed = true
        ∧ (∃ m, r.measurements = some m
            ∧ m.length = some ((calculateLongestDistance (finalPointsOf s) : ℤ) : ℚ))
        ∧ (handleMouseUp s fid hu).tool = Tool.select
        ∧ (handleMouseUp s fid hu).rois.length = s.rois.length + 1 := by
  intro s fid hu hp hd hdr hlen
  rw [handleMouseUp_commit s fid hu hp hd hdr hlen]
  refine ⟨newROI fid (finalPointsOf s) hu, rfl, rfl, rfl, ⟨_, rfl, rfl⟩, rfl, ?_⟩
  simp

/-- Witness for C6 at a concrete two point pencil gesture. -/
theorem commit_appends_new_confirmed_roi_witness :
    ((handleMouseUp sDraw "n1" 30).rois.map fun r => r.id) = ["n1"]
      ∧ (handleMouseUp sDraw "n1" 30).tool = Tool.select := by
  obtain ⟨r, ha, hid, hconf, hm, htool, hlen⟩ :=
    commit_appends_new_confirmed_roi sDraw "n1" 30 rfl rfl rfl (by decide)
  refine ⟨?_, htool⟩
  rw [ha, show sDraw.rois = [] from rfl]
  simp [hid]

/-- Counterexample to C6 as stated: the commit performs no freshness check,
so when the generated id collides with a stored id the store ends up with two
ROIs carrying the same id; ids are not guaranteed unused. -/
theorem commit_id_collision_possible :
    ((handleMouseUp sDup "abc" 30).rois.map fun r => r.id) = ["abc", "abc"]
      ∧ (sDup.rois.map fun r => r.id) = ["abc"] := by
  constructor
  · rw [handleMouseUp_commit sDup "abc" 30 rfl rfl rfl (by decide)]
    dsimp only
    rfl
  · rfl

/-- C7: a draw gesture whose final point list holds fewer than two points is
discarded on pointer up, leaving the ROI store unchanged; in particular a
single down and up with no intervening move creates no ROI. -/
theorem short_gesture_discarded :
    (∀ (s : EditorState) (fid : String) (hu : ℤ),
        s.isPanning = false → s.dragState = none → s.isDrawing = true →
        (finalPointsOf s).length < 2 →
        (handleMouseUp s fid hu).rois = s.rois)
      ∧ (handleMouseUp (handleMouseDown (some rect100) s0pencil (evAt ⟨20, 20⟩))
          "x" 5).rois = s0pencil.rois := by
  constructor
  · intro s fid hu hp hd hdr hlen
    rw [handleMouseUp_discard s fid hu hp hd hdr hlen]
  · simp [handleMouseUp, handleMouseDown, s0pencil, evAt, rect100, getMousePos,
      finalPointsOf]

/-- Witness for C7 at a concrete one point pencil gesture. -/
theorem short_gesture_discarded_witness :
    (handleMouseUp sShort "x" 5).rois = sShort.rois :=
  short_gesture_discarded.1 sShort "x" 5 rfl rfl rfl (by decide)

/-- C8: the total burden is the sum of the length measurements over all
current ROIs (absent lengths counting zero), before and after a deletion; two
ROIs of lengths 10 and 15 give 25, and deleting one leaves 15. -/
theorem total_burden_is_sum_of_lengths :
    (∀ rois : List ROIAnnotation,
        totalTumorBurden rois = (rois.map measLengthOrZero).sum)
      ∧ (∀ (rois : List ROIAnnotation) (id : String),
          totalTumorBurden (deleteROI id rois)
            = ((deleteROI id rois).map measLengthOrZero).sum)
      ∧ totalTumorBurden [roiLen10, roiLen15] = 25
      ∧ totalTumorBurden (deleteROI "b1" [roiLen10, roiLen15]) = 15 := by
  have hsum : ∀ rois : List ROIAnnotation,
      totalTumorBurden rois = (rois.map measLengthOrZero).sum := by
    intro rois
    rw [totalTumorBurden, foldl_add_measLength, zero_add]
  refine ⟨hsum, fun rois id => hsum _, ?_, ?_⟩
  · simp [totalTumorBurden, measLengthOrZero, roiLen10, roiLen15]
    norm_num
  · simp [totalTumorBurden, deleteROI, measLengthOrZero, roiLen10, roiLen15]

/-- C9: deletion is idempotent: removing an id not present leaves the store
unchanged, and deleting the same id twice equals deleting it once. -/
theorem delete_idempotent_and_noop_on_missing :
    (∀ (rois : List ROIAnnotation) (id : String),
        (∀ r ∈ rois, r.id ≠ id) → deleteROI id rois = rois)
      ∧ (∀ (rois : List ROIAnnotation) (id : String),
          deleteROI id (deleteROI id rois) = deleteROI id rois) := by
  constructor
  · intro rois id h
    rw [deleteROI, List.filter_eq_self]
    intro a ha
    simpa using h a ha
  · intro rois id
    rw [deleteROI, deleteROI, List.filter_filter]
    simp [Bool.and_self]

/-- Witness for C9: removing a missing id is a no-op and a repeated removal
changes nothing further. -/
theorem delete_idempotent_and_noop_on_missing_witness :
    deleteROI "zz" [roiLen10] = [roiLen10]
      ∧ deleteROI "b1" (deleteROI "b1" [roiLen10]) = deleteROI "b1" [roiLen10] :=
  ⟨delete_idempotent_and_noop_on_missing.1 [roiLen10] "zz" (by decide),
   delete_idempotent_and_noop_on_missing.2 [roiLen10] "b1"⟩

/-- C10: every ROI present after a pointer up that was not already stored is
a committed draw gesture ROI and carries type path, for the pencil tool and
the rect tool alike; the editor never commits the rect or circle variants. -/
theorem committed_roi_type_is_path :
    ∀ (s : EditorState) (fid : String) (hu : ℤ) (r : ROIAnnotation),
      r ∈ (handleMouseUp s fid hu).rois → r ∈ s.rois ∨ r.type = ROIType.path := by
  intro s fid hu r hr
  rcases mem_rois_handleMouseUp s fid hu r hr with h | h
  · exact Or.inl h
  · exact Or.inr (by rw [h]; rfl)

/-- Witness for C10: the ROI committed by a concrete pencil gesture has type
path. -/
theorem committed_roi_type_is_path_witness :
    (newROI "n2" [⟨0, 0⟩, ⟨3, 4⟩] 30).type = ROIType.path := by
  have hfp : finalPointsOf sDraw = [⟨0, 0⟩, ⟨3, 4⟩] := rfl
  have hmem : newROI "n2" [⟨0, 0⟩, ⟨3, 4⟩] 30 ∈ (handleMouseUp sDraw "n2" 30).rois := by
    rw [handleMouseUp_commit sDraw "n2" 30 rfl rfl rfl (by decide)]
    dsimp only
    rw [hfp, show sDraw.rois = [] from rfl]
    exact List.mem_singleton.mpr rfl
  have h := committed_roi_type_is_path sDraw "n2" 30 _ hmem
  refine h.resolve_left ?_
  rw [show sDraw.rois = [] from rfl]
  exact List.not_mem_nil _

end MedAI
